import Mathlib

/-
  Verification of the istio operator/CLI support core:
  - the xDS sync-status printers (istioctl/pkg/writer/pilot, src/unnamed/part_001),
  - the revision diff walker (istioctl/cmd/revision.go),
  - the sidecar bootstrap bundle composer (istioctl/cmd/sidecar-bootstrap.go),
  - the generic struct-tree validator (operator/pkg/validate/validate.go).
  Each definition is a shallow embedding of the corresponding Go function.
-/

namespace IstioStatus

/-- Per-type generic nonce record held in the `Statuses` map of a sync status.
Modelled from the spec: the field shape of `xds.SyncStatus.Statuses` (the
`pilot/pkg/xds` package is outside the provided sources); the spec describes
"per-type status/nonce fields" with a sent nonce and an acked nonce. -/
structure NonceStatus where
  NonceSent : String
  NonceAcked : String
deriving DecidableEq

/-- One decoded sync-status row, as consumed by `StatusWriter.statusPrintln`.
Modelled from the spec: `writerStatus` embeds `xds.SyncStatus` (outside the
provided sources); the legacy singular sent/acked fields and the generic
`Statuses` map are the fields the printer reads. -/
structure WriterStatus where
  pilot : String
  ProxyID : String
  ProxyVersion : String
  IstioVersion : String
  ClusterSent : String
  ClusterAcked : String
  ListenerSent : String
  ListenerAcked : String
  RouteSent : String
  RouteAcked : String
  EndpointSent : String
  EndpointAcked : String
  Statuses : List (String × NonceStatus)
deriving DecidableEq

/-- Go map indexing `sw.Statuses[k]`: the zero value is returned for a missing
key. -/
def statusMapGet (m : List (String × NonceStatus)) (k : String) : NonceStatus :=
  match m with
  | [] => ⟨"", ""⟩
  | (k', v) :: rest => if k' = k then v else statusMapGet rest k

/-- Modelled from the spec: `v3.GetShortType` (package `pilot/pkg/xds/v3`,
outside the provided sources) maps a full discovery type URL to its short
name (CDS/LDS/RDS/EDS) and returns any other string unchanged. -/
def GetShortType (typeURL : String) : String :=
  if typeURL = "type.googleapis.com/envoy.config.cluster.v3.Cluster" then "CDS"
  else if typeURL = "type.googleapis.com/envoy.config.listener.v3.Listener" then "LDS"
  else if typeURL = "type.googleapis.com/envoy.config.route.v3.RouteConfiguration" then "RDS"
  else if typeURL = "type.googleapis.com/envoy.config.endpoint.v3.ClusterLoadAssignment" then "EDS"
  else typeURL

/-- `xdsStatus` from the source: derives the qualitative label from the pair
(sent nonce, acked nonce). -/
def xdsStatus (sent acked : String) : String :=
  if sent = "" then "NOT SENT"
  else if sent = acked then "SYNCED"
  else if acked = "" then "STALE (Never Acknowledged)"
  else "STALE"

/-- The label printed for one column `ty` of a row `sw`, mirroring the loop
body of `StatusWriter.statusPrintln`: the generic per-type entry is read
first, then the `switch ty` unconditionally overwrites the label for the four
named discovery-resource columns from the legacy singular fields. -/
def columnStatus (sw : WriterStatus) (ty : String) : String :=
  let curStatus := xdsStatus (statusMapGet sw.Statuses (GetShortType ty)).NonceSent
      (statusMapGet sw.Statuses (GetShortType ty)).NonceAcked
  if ty = "CDS" then xdsStatus sw.ClusterSent sw.ClusterAcked
  else if ty = "LDS" then xdsStatus sw.ListenerSent sw.ListenerAcked
  else if ty = "RDS" then xdsStatus sw.RouteSent sw.RouteAcked
  else if ty = "EDS" then xdsStatus sw.EndpointSent sw.EndpointAcked
  else curStatus

/-- The list of per-column labels accumulated by `statusPrintln` for one row. -/
def statusColumns (xdsCols : List String) (sw : WriterStatus) : List String :=
  xdsCols.map (columnStatus sw)

/-- The full line printed by `StatusWriter.statusPrintln` for one row,
including the version fallback to the proxy version marked with `*`. -/
def statusPrintln (xdsCols : List String) (sw : WriterStatus) : String :=
  let version := if sw.IstioVersion = "" then sw.ProxyVersion ++ "*" else sw.IstioVersion
  sw.ProxyID ++ "\t" ++ String.intercalate "\t" (statusColumns xdsCols sw)
    ++ "\t" ++ sw.pilot ++ "\t" ++ version

/-- The legacy singular sent field consulted by the `switch` in
`statusPrintln` for one of the four named columns. -/
def legacySent (sw : WriterStatus) (ty : String) : String :=
  if ty = "CDS" then sw.ClusterSent
  else if ty = "LDS" then sw.ListenerSent
  else if ty = "RDS" then sw.RouteSent
  else sw.EndpointSent

/-- The legacy singular acked field consulted by the `switch` in
`statusPrintln` for one of the four named columns. -/
def legacyAcked (sw : WriterStatus) (ty : String) : String :=
  if ty = "CDS" then sw.ClusterAcked
  else if ty = "LDS" then sw.ListenerAcked
  else if ty = "RDS" then sw.RouteAcked
  else sw.EndpointAcked

end IstioStatus

namespace IstioXds

/-- The shape variants of a `PerXdsConfig` oneof, as matched by
`getSyncStatus`. -/
inductive XdsKind where
  | listener
  | cluster
  | route
  | endpoint
  | scopedRoute
  | other
deriving DecidableEq

/-- One `PerXdsConfig` entry of a decoded `ClientConfig`: a oneof shape and
the textual form of its sync status. -/
structure PerXds where
  kind : XdsKind
  status : String
deriving DecidableEq

/-- Modelled from the spec: the decoded
`envoy.service.status.v3.ClientConfig` payload (proto type outside the
provided sources), carrying the node identifier and per-xDS-type configs. -/
structure ClientConfig where
  nodeId : String
  xdsConfig : List PerXds
deriving DecidableEq

/-- One resource of a discovery response. `clientConfig` models the result of
`resource.UnmarshalTo(&clientConfig)` (proto decoding is external): decoding
succeeds exactly when a decoded `ClientConfig` is present. `value` is the raw
payload bytes. -/
structure Resource where
  typeUrl : String
  value : String
  clientConfig : Option ClientConfig
deriving DecidableEq

/-- A discovery response: its resources plus the control-plane identifier and
version. The latter two model `multixds.CpInfo(dr)` (outside the provided
sources), which parses the control-plane info out of the response. -/
structure DiscoveryResponse where
  resources : List Resource
  cpID : String
  cpVersion : String
deriving DecidableEq

/-- The expected payload type of a structured sync-status resource. -/
def clientConfigTypeURL : String :=
  "type.googleapis.com/envoy.service.status.v3.ClientConfig"

/-- One row gathered by `XdsStatusWriter.setupStatusPrint`. -/
structure XdsWriterStatus where
  proxyID : String
  istiodID : String
  istiodVersion : String
  clusterStatus : String
  listenerStatus : String
  routeStatus : String
  endpointStatus : String
deriving DecidableEq

/-- `getSyncStatus` from the source: reduces the per-xDS-type configs to the
four textual statuses `(cds, lds, eds, rds)`, later entries of the same kind
overwriting earlier ones. -/
def getSyncStatus (configs : List PerXds) : String × String × String × String :=
  go configs "" "" "" ""
where
  go : List PerXds → String → String → String → String → String × String × String × String
  | [], cds, lds, eds, rds => (cds, lds, eds, rds)
  | c :: rest, cds, lds, eds, rds =>
    match c.kind with
    | .listener => go rest cds c.status eds rds
    | .cluster => go rest c.status lds eds rds
    | .route => go rest cds lds eds c.status
    | .endpoint => go rest cds lds c.status rds
    | .scopedRoute => go rest cds lds eds rds
    | .other => go rest cds lds eds rds

/-- The mutable state threaded through `XdsStatusWriter.setupStatusPrint`:
the gathered rows, whether the tabwriter has been initialized (`w != nil`),
and the raw bytes written directly to the underlying writer by the
passthrough branch. -/
structure SetupState where
  fullStatus : List XdsWriterStatus
  wInit : Bool
  rawWrites : List String
deriving DecidableEq

/-- Insertion into a list sorted ascending by `proxyID`, used to model
`sort.Slice(fullStatus, ...)`. -/
def insertByProxyID (x : XdsWriterStatus) : List XdsWriterStatus → List XdsWriterStatus
  | [] => [x]
  | y :: rest =>
    if x.proxyID < y.proxyID then x :: y :: rest else y :: insertByProxyID x rest

/-- `sort.Slice(fullStatus, func(i, j) { proxyID[i] < proxyID[j] })`. -/
def sortByProxyID (l : List XdsWriterStatus) : List XdsWriterStatus :=
  l.foldl (fun acc x => insertByProxyID x acc) []

/-- One iteration of the inner resource loop of
`XdsStatusWriter.setupStatusPrint`. A `ClientConfig` resource is decoded
(failure aborts with an error), appended, and the rows re-sorted; any other
payload type takes the passthrough branch, which writes the raw bytes of
every resource of the same response and resets the gathered rows. -/
def stepResource (dr : DiscoveryResponse) (st : SetupState) (r : Resource) :
    Except String SetupState :=
  if r.typeUrl = clientConfigTypeURL then
    match r.clientConfig with
    | none => .error "could not unmarshal ClientConfig"
    | some cc =>
      let s := getSyncStatus cc.xdsConfig
      let fs := st.fullStatus ++
        [⟨cc.nodeId, dr.cpID, dr.cpVersion, s.1, s.2.1, s.2.2.2, s.2.2.1⟩]
      if fs.isEmpty then .error "no proxies found"
      else .ok ⟨sortByProxyID fs, true, st.rawWrites⟩
  else
    .ok ⟨[], st.wInit, st.rawWrites ++ dr.resources.map (fun q => q.value)⟩

/-- `XdsStatusWriter.setupStatusPrint` over a map of istiod id to discovery
response (the Go map is modelled as an association list in iteration
order). -/
def setupStatusPrint (drs : List (String × DiscoveryResponse)) :
    Except String SetupState :=
  drs.foldlM (fun st p => p.2.resources.foldlM (stepResource p.2) st)
    ⟨[], false, []⟩

/-- The line printed by `xdsStatusPrintln` for one gathered row. -/
def xdsStatusPrintln (st : XdsWriterStatus) : String :=
  st.proxyID ++ "\t" ++ st.clusterStatus ++ "\t" ++ st.listenerStatus ++ "\t" ++
    st.endpointStatus ++ "\t" ++ st.routeStatus ++ "\t" ++
    st.istiodID ++ "\t" ++ st.istiodVersion

/-- `XdsStatusWriter.PrintAll`: on success returns the raw passthrough bytes
written to the underlying writer and the formatted table rows (empty when the
tabwriter was never initialized). -/
def PrintAll (drs : List (String × DiscoveryResponse)) :
    Except String (List String × List String) := do
  let st ← setupStatusPrint drs
  .ok (st.rawWrites, st.fullStatus.map xdsStatusPrintln)

end IstioXds

namespace IstioRevision

/-- A generic decoded configuration value (the `interface{}` trees produced
by `config.ToMap`): JSON-style maps, sequences and scalars. Numbers are
modelled as integers. -/
inductive Value where
  | vnull
  | vstr (s : String)
  | vnum (n : Int)
  | vbool (b : Bool)
  | vmap (entries : List (String × Value))
  | vseq (elems : List Value)

mutual

/-- Structural equality of decoded values, i.e. Go interface equality
`v == orig` on the decoded trees (two interface values are equal when their
dynamic types and contents agree). -/
def valueBeq : Value → Value → Bool
  | .vnull, .vnull => true
  | .vstr a, .vstr b => a == b
  | .vnum a, .vnum b => a == b
  | .vbool a, .vbool b => a == b
  | .vmap a, .vmap b => entriesBeq a b
  | .vseq a, .vseq b => elemsBeq a b
  | _, _ => false

/-- Structural equality of map entry lists. -/
def entriesBeq : List (String × Value) → List (String × Value) → Bool
  | [], [] => true
  | (k, v) :: r, (k', v') :: r' => k == k' && valueBeq v v' && entriesBeq r r'
  | _, _ => false

/-- Structural equality of sequence element lists. -/
def elemsBeq : List Value → List Value → Bool
  | [], [] => true
  | v :: r, v' :: r' => valueBeq v v' && elemsBeq r r'
  | _, _ => false

end

/-- Whether a decoded value is map-shaped (the `orig.(map[string]interface{})`
type assertion succeeds). -/
def isMapV : Value → Bool
  | .vmap _ => true
  | _ => false

/-- Whether a decoded value is sequence-shaped (the `orig.([]interface{})`
type assertion succeeds). -/
def isSeqV : Value → Bool
  | .vseq _ => true
  | _ => false

/-- Whether a decoded value is the nil interface. -/
def isNullV : Value → Bool
  | .vnull => true
  | _ => false

/-- One diff record `iopDiff{Path, Value}`. -/
structure IopDiff where
  Path : String
  Value : String
deriving DecidableEq

/-- Modelled from the spec: `util.PathSeparator` / `util.EscapedPathSeparator`
(package `operator/pkg/util`, outside the provided sources): a key that
contains the path separator `.` has it escaped before concatenation. -/
def pathComponent (component : String) : String :=
  if component.data.contains '.' then
    String.mk (component.data.flatMap (fun c => if c = '.' then ['\\', '.'] else [c]))
  else component

/-- `fmt.Sprintf("%q", v)` for the string scalar case (escaping backslashes
and double quotes). -/
def goQuote (s : String) : String :=
  "\"" ++ String.join (s.data.map (fun c =>
    if c = '\\' then "\\\\" else if c = '"' then "\\\"" else String.singleton c)) ++ "\""

/-- `fmt.Sprintf("%v", v)` for the default scalar case. -/
def goRender : Value → String
  | .vnull => "<nil>"
  | .vstr s => s
  | .vnum n => toString n
  | .vbool b => if b then "true" else "false"
  | .vmap _ => "map"
  | .vseq _ => "seq"

/-- Go map indexing `typedOrig[key]`: nil zero value for a missing key. -/
def mapIndex (entries : List (String × Value)) (k : String) : Value :=
  match entries with
  | [] => .vnull
  | (k', v) :: rest => if k' = k then v else mapIndex rest k

mutual

/-- `diffWalk` from the source. A Go panic (the unguarded slice index
`typedOrig[idx]` when the current sequence is longer than the baseline
sequence) is modelled as `Except.error`. -/
def diffWalk (path separator : String) (obj orig : Value) :
    Except String (List IopDiff) :=
  match obj with
  | .vmap entries =>
    match orig with
    | .vmap origEntries => diffWalkMap path separator entries origEntries
    | _ => .ok []
  | .vseq elems =>
    match orig with
    | .vseq origElems => diffWalkSeq path elems origElems 0
    | _ => .ok []
  | .vstr s =>
    if !valueBeq (.vstr s) orig && !isNullV orig then
      .ok [⟨path, goQuote s⟩]
    else .ok []
  | v =>
    if !valueBeq v orig && !isNullV orig then
      .ok [⟨path, goRender v⟩]
    else .ok []

/-- The map-case loop of `diffWalk`: each key of the current map is looked up
in the baseline map (missing keys yield a nil baseline). -/
def diffWalkMap (path separator : String) (entries : List (String × Value))
    (origEntries : List (String × Value)) : Except String (List IopDiff) :=
  match entries with
  | [] => .ok []
  | (key, vv) :: rest => do
    let childwalk ← diffWalk (path ++ separator ++ pathComponent key) "." vv
      (mapIndex origEntries key)
    let restwalk ← diffWalkMap path separator rest origEntries
    .ok (childwalk ++ restwalk)

/-- The sequence-case loop of `diffWalk`: index `idx` of the current sequence
is accessed at the same index of the baseline slice; an index beyond the
baseline's length is the out-of-range panic. -/
def diffWalkSeq (path : String) (elems : List Value) (origElems : List Value)
    (idx : Nat) : Except String (List IopDiff) :=
  match elems with
  | [] => .ok []
  | vv :: rest =>
    match origElems.get? idx with
    | none => .error "runtime error: index out of range"
    | some o => do
      let indexwalk ← diffWalk (path ++ "[" ++ toString idx ++ "]") "." vv o
      let restwalk ← diffWalkSeq path rest origElems (idx + 1)
      .ok (indexwalk ++ restwalk)

end

/-- No string occurs twice in the list. -/
def keysUnique : List String → Bool
  | [] => true
  | k :: rest => !rest.contains k && keysUnique rest

mutual

/-- Keys of every map node of a tree are pairwise distinct (always true of a
decoded Go map). -/
def wfKeys : Value → Bool
  | .vmap entries => keysUnique (entries.map Prod.fst) && wfEntries entries
  | .vseq elems => wfElems elems
  | _ => true

def wfEntries : List (String × Value) → Bool
  | [] => true
  | (_, v) :: rest => wfKeys v && wfEntries rest

def wfElems : List Value → Bool
  | [] => true
  | v :: rest => wfKeys v && wfElems rest

end

end IstioRevision

namespace IstioBootstrap

/-- `BootstrapBundle` from the source: mesh facts, one workload's identity
and the sidecar runtime parameters. The workload entry itself is not read by
`processBundle` and is kept opaque. -/
structure BootstrapBundle where
  IstioCaCert : String
  IstioIngressGatewayAddress : String
  Workload : String
  ServiceAccountToken : String
  IstioProxyContainerName : String
  IstioProxyImage : String
  IstioProxyEnvironment : String
  IstioProxyArgs : List String
  IstioProxyHosts : List String
deriving DecidableEq

/-- `fileToCopy` from the source; the permission mode is the numeric value of
the `os.FileMode`. -/
structure FileToCopy where
  name : String
  dir : String
  perm : Nat
  data : String
deriving DecidableEq

/-- `cmdToExec` from the source. -/
structure CmdToExec where
  cmd : String
  required : Bool
deriving DecidableEq

/-- `bootstrapItems` from the source. -/
structure BootstrapItems where
  filesToCopy : List FileToCopy
  cmdsToExec : List CmdToExec
deriving DecidableEq

/-- `os.FileMode(0644)`, used for the environment and CA certificate files. -/
def configFilePerm : Nat := 0o644

/-- `os.FileMode(0640)`, used for the identity token file. -/
def secretFilePerm : Nat := 0o640

/-- The fixed head of the `docker run` argument list built by
`processBundle` before the host-alias loop. -/
def launchCmdBase (bundle : BootstrapBundle) (remoteDir : String) : List String :=
  ["docker", "run", "-d",
   "--name", bundle.IstioProxyContainerName,
   "--restart", "unless-stopped",
   "--network", "host",
   "-v", remoteDir ++ "/istio-ca.pem" ++ ":" ++ "/var/run/secrets/istio/root-cert.pem",
   "-v", remoteDir ++ "/istio-token" ++ ":" ++ "/var/run/secrets/tokens/istio-token",
   "--env-file", remoteDir ++ "/sidecar.env"]

/-- The complete `docker run` argument list: the fixed head, then the
host-alias loop appending one `--add-host` pair per configured host, then the
image reference and the trailing process arguments. -/
def launchCmdTokens (bundle : BootstrapBundle) (remoteDir : String) : List String :=
  (bundle.IstioProxyHosts.foldl
    (fun cmd host => cmd ++ ["--add-host", host ++ ":" ++ bundle.IstioIngressGatewayAddress])
    (launchCmdBase bundle remoteDir))
  ++ [bundle.IstioProxyImage] ++ bundle.IstioProxyArgs

/-- `processBundle` from the source: the three files to copy and the two
commands to execute. -/
def processBundle (bundle : BootstrapBundle) (remoteDir : String) : BootstrapItems :=
  { filesToCopy :=
      [⟨"sidecar.env", remoteDir, configFilePerm, bundle.IstioProxyEnvironment⟩,
       ⟨"istio-ca.pem", remoteDir, configFilePerm, bundle.IstioCaCert⟩,
       ⟨"istio-token", remoteDir, secretFilePerm, bundle.ServiceAccountToken⟩],
    cmdsToExec :=
      [⟨"docker rm --force " ++ bundle.IstioProxyContainerName, false⟩,
       ⟨String.intercalate " " (launchCmdTokens bundle remoteDir), true⟩] }

/-- The arguments following each `-v` flag of an argument list: the volume
mount mappings of a docker command line. -/
def volumeMountArgs : List String → List String
  | "-v" :: t :: rest => t :: volumeMountArgs rest
  | _ :: rest => volumeMountArgs rest
  | [] => []

/-- The arguments following each `--add-host` flag of an argument list. -/
def addHostArgs : List String → List String
  | "--add-host" :: t :: rest => t :: addHostArgs rest
  | _ :: rest => addHostArgs rest
  | [] => []

end IstioBootstrap

namespace IstioValidate

/-- A scalar leaf value of a configuration tree. -/
inductive ScalarV where
  | sstr (s : String)
  | sint (n : Int)
  | sbool (b : Bool)
deriving DecidableEq

/-- The reflected shape of a Go value as dispatched on by `Validate`:
the nil interface, a scalar, a struct (fields are `(declared name, json
skip tag, value)` triples), a string-keyed map, a slice, or a pointer
(present or nil). -/
inductive GoVal where
  | vnil
  | vscalar (s : ScalarV)
  | vstruct (fields : List (String × Bool × GoVal))
  | vmap (entries : List (String × GoVal))
  | vslice (elems : List GoVal)
  | vptr (inner : Option GoVal)

/-- The errors produced by the walker and its rule functions, one
constructor per `fmt.Errorf` site: the two entry-point type mismatches, the
required-field failure of `validateLeaf`, and a rule-violation error carrying
its message. -/
inductive VErr where
  | expectedPtr (pathStr : String)
  | expectedStruct (pathStr : String)
  | requiredNotSet (displayPath : String)
  | ruleViolation (msg : String)
deriving DecidableEq

/-- Whether an error is the `"field %s is required but not set"` error of
`validateLeaf`. -/
def VErr.isRequiredNotSet : VErr → Bool
  | .requiredNotSet _ => true
  | _ => false

/-- A validation rule function `(path, value) -> errors`. -/
abbrev ValidatorFunc : Type := List String → GoVal → List VErr

/-- A validation rule table, keyed by dotted path pattern. -/
abbrev Validations : Type := List (String × ValidatorFunc)

/-- Association-list lookup for the rule table. -/
def lookupVF : Validations → String → Option ValidatorFunc
  | [], _ => none
  | (k, f) :: rest, s => if k = s then some f else lookupVF rest s

/-- `util.Path.String()` (package `operator/pkg/util`, outside the provided
sources). Modelled from the spec: the dotted display form joins the path
segments with `.` (slice indices are already part of their segment). -/
def pathToString (path : List String) : String :=
  String.intercalate "." path

/-- Lower-case the first character of a string. -/
def lowerFirst (s : String) : String :=
  match s.data with
  | [] => s
  | c :: rest => String.mk (c.toLower :: rest)

/-- Split a character list at a delimiter character. -/
def splitOnChar (delim : Char) : List Char → List (List Char)
  | [] => [[]]
  | c :: rest =>
    let r := splitOnChar delim rest
    if c = delim then [] :: r
    else
      match r with
      | s :: ss => (c :: s) :: ss
      | [] => [[c]]

/-- `util.ToYAMLPathString` (outside the provided sources). Modelled from the
spec: the dotted-and-indexed display form of a path, with each segment
rendered in lower-camel case. -/
def toYAMLPathString (pstr : String) : String :=
  String.intercalate "." ((splitOnChar '.' pstr.data).map (fun cs => lowerFirst (String.mk cs)))

/-- `indexPathForSlice` (outside the provided sources). Modelled from the
spec: the segment for element `i` of slice field `name` is `name[i]`. -/
def indexPathForSlice (fieldName : String) (i : Nat) : String :=
  fieldName ++ "[" ++ toString i ++ "]"

/-- Rewrite one `name[i]` segment to the wildcard form `name[*]`. -/
def toWildcardSegment (s : String) : String :=
  match splitOnChar '[' s.data with
  | [name, _] => String.mk name ++ "[*]"
  | _ => s

/-- `getValidationFuncForPath` (outside the provided sources). Modelled from
the spec: the exact literal path is matched first, then the wildcarded
pattern in which every indexed segment is replaced by `name[*]`. -/
def getValidationFuncForPath (validations : Validations) (path : List String) :
    Option ValidatorFunc :=
  match lookupVF validations (pathToString path) with
  | some f => some f
  | none => lookupVF validations (pathToString (path.map toWildcardSegment))

/-- `util.IsValueNil || util.IsEmptyString` (outside the provided sources).
Modelled from the spec: a leaf value is empty/absent when it is nil or the
empty string. -/
def isEmptyVal : GoVal → Bool
  | .vnil => true
  | .vscalar (.sstr "") => true
  | .vptr none => true
  | _ => false

/-- `validateLeaf` from the source, with the package-level `requiredValues`
table passed explicitly as `req`: an empty/absent value succeeds unless
required-field checking is active and the exact path is marked required;
otherwise the matching rule (if any) is invoked. -/
def validateLeaf (validations : Validations) (req : String → Bool)
    (path : List String) (val : GoVal) (checkRequired : Bool) : List VErr :=
  let pstr := pathToString path
  if isEmptyVal val then
    if checkRequired && req pstr then
      [.requiredNotSet (toYAMLPathString pstr)]
    else []
  else
    match getValidationFuncForPath validations path with
    | none => []
    | some vf => vf path val

mutual

/-- `Validate` from the source: the walker entry point. A nil input and a
bare struct value return no errors (structs are skipped with a debug
message); a non-pointer is an `expected ptr` error, a pointer whose pointee
is not a struct is an `expected struct` error; a pointer to a struct walks
the struct's fields. -/
def Validate (validations : Validations) (req : String → Bool)
    (structPtr : GoVal) (path : List String) (checkRequired : Bool) : List VErr :=
  match structPtr with
  | .vnil => []
  | .vstruct _ => []
  | .vptr (some (.vstruct fs)) => validateFields validations req fs path checkRequired
  | .vptr _ => [.expectedStruct (pathToString path)]
  | _ => [.expectedPtr (pathToString path)]

/-- The field loop of `Validate`: dispatch on each field's declared kind.
A json-skipped field is not descended into; a struct field recurses with the
field name appended; a map field is first validated as a whole and then each
entry value is validated as a leaf; a slice field validates each element; a
nil pointer field is skipped, a pointer-to-struct field recurses and any
other pointer field is a leaf; all remaining kinds are leaves. -/
def validateFields (validations : Validations) (req : String → Bool)
    (fs : List (String × Bool × GoVal)) (path : List String)
    (checkRequired : Bool) : List VErr :=
  match fs with
  | [] => []
  | (name, skip, v) :: rest =>
    (if skip then []
     else
       match v with
       | .vstruct gs => validateFields validations req gs (path ++ [name]) checkRequired
       | .vmap entries =>
         validateLeaf validations req (path ++ [name]) (.vmap entries) checkRequired ++
         validateMapEntries validations req entries (path ++ [name]) checkRequired
       | .vslice elems =>
         validateSliceElems validations req name elems 0 path checkRequired
       | .vptr none => []
       | .vptr (some (.vstruct gs)) =>
         validateFields validations req gs (path ++ [name]) checkRequired
       | .vptr (some w) =>
         validateLeaf validations req (path ++ [name]) (.vptr (some w)) checkRequired
       | w => validateLeaf validations req (path ++ [name]) w checkRequired)
    ++ validateFields validations req rest path checkRequired

/-- The map-entry loop of `Validate`: every entry value is validated as a
leaf at the path formed by appending the key. -/
def validateMapEntries (validations : Validations) (req : String → Bool)
    (entries : List (String × GoVal)) (newPath : List String)
    (checkRequired : Bool) : List VErr :=
  match entries with
  | [] => []
  | (k, v) :: rest =>
    validateLeaf validations req (newPath ++ [k]) v checkRequired ++
    validateMapEntries validations req rest newPath checkRequired

/-- The slice-element loop of `Validate`: a struct or pointer element is
passed back to `Validate` (a bare struct element is therefore skipped), any
other element is a leaf at `name[idx]`. -/
def validateSliceElems (validations : Validations) (req : String → Bool)
    (name : String) (elems : List GoVal) (idx : Nat) (path : List String)
    (checkRequired : Bool) : List VErr :=
  match elems with
  | [] => []
  | e :: rest =>
    (match e with
     | .vstruct gs =>
       Validate validations req (.vstruct gs)
         (path ++ [indexPathForSlice name idx]) checkRequired
     | .vptr inner =>
       Validate validations req (.vptr inner)
         (path ++ [indexPathForSlice name idx]) checkRequired
     | w =>
       validateLeaf validations req (path ++ [indexPathForSlice name idx]) w
         checkRequired)
    ++ validateSliceElems validations req name rest (idx + 1) path checkRequired

end

/-- Modelled from the spec: `ObjectNameRegexp` (defined outside the provided
sources) is a DNS-label-style name grammar: non-empty, at most 63 characters,
lower-case alphanumerics and `-`, starting and ending with an alphanumeric. -/
def objectNameOk (s : String) : Bool :=
  let alnum := fun c : Char => (c.isLower && c.isAlpha) || c.isDigit
  match s.data with
  | [] => false
  | cs =>
    decide (cs.length ≤ 63) &&
    cs.all (fun c => alnum c || c = '-') &&
    alnum cs.head! && alnum cs.getLast!

/-- Modelled from the spec: `ReferenceRegexp` (outside the provided sources),
the registry-reference grammar for `Hub`; modelled as requiring a non-empty
reference without whitespace. -/
def referenceOk (s : String) : Bool :=
  !s.isEmpty && s.data.all (fun c => !c.isWhitespace)

/-- Modelled from the spec: `TagRegexp` (outside the provided sources), the
version-tag grammar for `Tag`; modelled as a non-empty word of tag
characters. -/
def tagOk (s : String) : Bool :=
  !s.isEmpty && s.data.all (fun c => c.isAlphanum || c = '.' || c = '-' || c = '_')

/-- The textual form of a string-scalar value, used for grammar matching. -/
def renderScalar : GoVal → String
  | .vscalar (.sstr s) => s
  | _ => ""

/-- `validateWithRegex` (outside the provided sources). Modelled from the
spec: renders the value and matches it against the grammar, producing one
rule-violation error on failure. -/
def validateWithRegex (path : List String) (val : GoVal) (ok : String → Bool) :
    List VErr :=
  if ok (renderScalar val) then []
  else [.ruleViolation ("invalid value " ++ pathToString path)]

/-- `validateHub` from the source. -/
def validateHub (path : List String) (val : GoVal) : List VErr :=
  validateWithRegex path val referenceOk

/-- `validateTag` from the source. -/
def validateTag (path : List String) (val : GoVal) : List VErr :=
  validateWithRegex path val tagOk

/-- Modelled from the spec: `name.BundledAddonComponentNamesMap` (outside the
provided sources), the reserved bundled addon component names in their
canonical title-case form. -/
def bundledAddonComponentNames : List String :=
  ["Prometheus", "Kiali", "Grafana", "Tracing", "Zipkin"]

/-- Modelled from the spec: `name.TitleCase` (outside the provided sources),
upper-casing the first character of a component name. -/
def titleCase (s : String) : String :=
  match s.data with
  | [] => s
  | c :: rest => String.mk (c.toUpper :: rest)

/-- `validateAddonComponents` from the source: the value must be a map of
external component specs; the first key that collides with a reserved
bundled name in exactly its title-case form is an error. -/
def validateAddonComponents (path : List String) (val : GoVal) : List VErr :=
  match val with
  | .vmap entries =>
    match entries.find? (fun kv =>
        bundledAddonComponentNames.contains kv.1 && kv.1 = titleCase kv.1) with
    | some kv => [.ruleViolation ("invalid addon component name: " ++ kv.1)]
    | none => []
  | _ => [.ruleViolation ("validateAddonComponents(" ++ pathToString path ++ ") bad type")]

/-- `validateGatewayName` from the source: the value must be a string; the
empty string is valid (the default gateway name is used downstream);
otherwise the DNS-label-style grammar applies. -/
def validateGatewayName (path : List String) (val : GoVal) : List VErr :=
  match val with
  | .vscalar (.sstr s) =>
    if s = "" then []
    else validateWithRegex path val objectNameOk
  | _ => [.ruleViolation ("validateGatewayName(" ++ pathToString path ++ ") bad type")]

/-- The external collaborators invoked by the shipped rule table, all defined
outside the provided sources: yaml serialization (`yaml.Marshal`), the strict
merge onto the default mesh config (`gogoprotomarshal.ApplyYAMLStrict`,
rejecting unknown fields), the mesh config's semantic validation
(`mesh.ApplyMeshConfigDefaults`), and the re-serialize/strict-merge/validate
pipeline of the values-blob validation. A value of this type fixes one
behavior of each collaborator — its result or its error message; theorems
about the shipped table quantify over every such behavior. -/
structure ExternalChecks where
  yamlMarshal : GoVal → Except String String
  applyYAMLStrict : String → Option String
  applyMeshConfigDefaults : String → Option String
  checkValues : GoVal → List String

/-- Modelled from the spec: `CheckValues` (defined outside the provided
sources) re-serializes the values subtree, merges it onto a known-good
default document rejecting unknown fields during the merge, then applies
that document type's own semantic validation; every failure of the pipeline
is reported as an error. The pipeline is the `checkValues` collaborator of
`ExternalChecks`, and each of its failure messages becomes one
rule-violation error. -/
def CheckValues (ext : ExternalChecks) (root : GoVal) : List VErr :=
  (ext.checkValues root).map (fun msg => .ruleViolation msg)

/-- `validateMeshConfig` from the source: re-serialize the subtree (a marshal
failure is returned as the single error); strict-merge the document onto the
default mesh config, rejecting unknown fields (a failure is returned as the
single `failed to unmarshall mesh config` error); then apply the mesh
config's own semantic validation (a failure is returned as the single
error). The three steps (`yaml.Marshal`, `gogoprotomarshal.ApplyYAMLStrict`,
`mesh.ApplyMeshConfigDefaults`) are external collaborators supplied by
`ExternalChecks`. -/
def validateMeshConfig (ext : ExternalChecks) (_ : List String) (root : GoVal) :
    List VErr :=
  match ext.yamlMarshal root with
  | .error err => [.ruleViolation err]
  | .ok vs =>
    match ext.applyYAMLStrict vs with
    | some err => [.ruleViolation ("failed to unmarshall mesh config: " ++ err)]
    | none =>
      match ext.applyMeshConfigDefaults vs with
      | some validErr => [.ruleViolation validErr]
      | none => []

/-- `DefaultValidations` from the source: the shipped rule table, given one
behavior of the external collaborators. -/
def DefaultValidations (ext : ExternalChecks) : Validations :=
  [("Values", fun _ v => CheckValues ext v),
   ("MeshConfig", validateMeshConfig ext),
   ("Hub", validateHub),
   ("Tag", validateTag),
   ("AddonComponents", validateAddonComponents),
   ("Components.IngressGateways[*].Name", validateGatewayName),
   ("Components.EgressGateways[*].Name", validateGatewayName)]

/-- `requiredValues` from the source: the package-level required-field table,
which is the empty map (every lookup yields `false`). -/
def requiredValues : String → Bool := fun _ => false

/-- `CheckIstioOperatorSpec` from the source: a nil spec pointer yields no
errors; otherwise the spec struct (modelled by its field list) is walked with
the shipped rule table, under the given behavior of the external
collaborators. -/
def CheckIstioOperatorSpec (ext : ExternalChecks)
    (is : Option (List (String × Bool × GoVal)))
    (checkRequiredFields : Bool) : List VErr :=
  match is with
  | none => []
  | some fs =>
    Validate (DefaultValidations ext) requiredValues (.vptr (some (.vstruct fs)))
      [] checkRequiredFields

end IstioValidate

open IstioStatus IstioXds IstioRevision IstioBootstrap IstioValidate

/-- C5: the status label derivation is a pure total function of the pair
(sent nonce, acked nonce): `xdsStatus` returns `NOT SENT` when sent is empty,
`SYNCED` when sent equals acked and both are non-empty, `STALE (Never
Acknowledged)` when sent is non-empty and acked is empty, and `STALE` when
both are non-empty and differ; no other input is consulted. -/
theorem c5_xdsStatus_pure_label (sent acked : String) :
    (sent = "" → xdsStatus sent acked = "NOT SENT") ∧
    (sent ≠ "" → sent = acked → xdsStatus sent acked = "SYNCED") ∧
    (sent ≠ "" → acked = "" → xdsStatus sent acked = "STALE (Never Acknowledged)") ∧
    (sent ≠ "" → acked ≠ "" → sent ≠ acked → xdsStatus sent acked = "STALE") := by
  refine ⟨?_, ?_, ?_, ?_⟩ <;> intros <;> simp_all [xdsStatus]

/-- C5 witness: the four boundary pairs of the claim's table, settled by
applying `c5_xdsStatus_pure_label` at concrete nonces. -/
theorem c5_xdsStatus_pure_label_witness :
    xdsStatus "" "" = "NOT SENT" ∧ xdsStatus "n1" "n1" = "SYNCED" ∧
    xdsStatus "n1" "" = "STALE (Never Acknowledged)" ∧ xdsStatus "n1" "n2" = "STALE" :=
  ⟨(c5_xdsStatus_pure_label "" "").1 rfl,
   (c5_xdsStatus_pure_label "n1" "n1").2.1 (by decide) rfl,
   (c5_xdsStatus_pure_label "n1" "").2.2.1 (by decide) rfl,
   (c5_xdsStatus_pure_label "n1" "n2").2.2.2 (by decide) (by decide) (by decide)⟩

/-- C1 counterexample: a row whose generic per-type entry for the CDS column
is present and non-empty (sent = acked = "n1", so the generic-derived label
would be SYNCED) while the legacy singular cluster fields are empty; the
printed label is `NOT SENT`, i.e. it is derived from the legacy fields, not
from the generic entry — refuting the claimed preference for the generic
form. -/
theorem c1_counterexample :
    statusColumns ["CDS"]
      ⟨"istiod-1", "proxy-a", "1.6.0", "1.6.0", "", "", "", "", "", "", "", "",
        [("CDS", ⟨"n1", "n1"⟩)]⟩ = ["NOT SENT"] ∧
    (statusMapGet [("CDS", NonceStatus.mk "n1" "n1")] (GetShortType "CDS")).NonceSent = "n1" ∧
    xdsStatus "n1" "n1" = "SYNCED" ∧
    ("NOT SENT" : String) ≠ "SYNCED" :=
  ⟨rfl, rfl, rfl, by decide⟩

/-- C1 amended: for the four named discovery-resource columns CDS, LDS, RDS
and EDS, `statusPrintln` always derives the printed label from the legacy
singular sent/acked fields — the generic per-type entry is ignored even when
present — and only a column outside these four names is derived from the
generic `Statuses` entry. -/
theorem c1_named_columns_use_legacy_fields (sw : WriterStatus) (cols : List String)
    (i : Nat) (ty : String) (h : cols.get? i = some ty) :
    (statusColumns cols sw).get? i = some
      (if ty = "CDS" ∨ ty = "LDS" ∨ ty = "RDS" ∨ ty = "EDS" then
        xdsStatus (legacySent sw ty) (legacyAcked sw ty)
      else
        xdsStatus (statusMapGet sw.Statuses (GetShortType ty)).NonceSent
          (statusMapGet sw.Statuses (GetShortType ty)).NonceAcked) := by
  have hmap : (statusColumns cols sw).get? i = (cols.get? i).map (columnStatus sw) := by
    simp [statusColumns]
  rw [hmap, h]
  by_cases hc : ty = "CDS"
  · simp [columnStatus, legacySent, legacyAcked, hc]
  · by_cases hl : ty = "LDS"
    · simp [columnStatus, legacySent, legacyAcked, hc, hl]
    · by_cases hr : ty = "RDS"
      · simp [columnStatus, legacySent, legacyAcked, hc, hl, hr]
      · by_cases he : ty = "EDS"
        · simp [columnStatus, legacySent, legacyAcked, hc, hl, hr, he]
        · simp [columnStatus, hc, hl, hr, he]

/-- C1 amended witness: applying `c1_named_columns_use_legacy_fields` to the
counterexample row shows the CDS column prints the label of the empty legacy
pair. -/
theorem c1_named_columns_use_legacy_fields_witness :
    (statusColumns ["CDS"]
      ⟨"istiod-1", "proxy-a", "1.6.0", "1.6.0", "", "", "", "", "", "", "", "",
        [("CDS", ⟨"n1", "n1"⟩)]⟩).get? 0 = some "NOT SENT" := by
  have h := c1_named_columns_use_legacy_fields
    ⟨"istiod-1", "proxy-a", "1.6.0", "1.6.0", "", "", "", "", "", "", "", "",
      [("CDS", ⟨"n1", "n1"⟩)]⟩ ["CDS"] 0 "CDS" rfl
  rw [h]
  rfl

/-- C3: the claim states that an index of the current sequence with no
corresponding baseline element contributes no diff records and that no index
access is out of bounds; the code instead performs the unguarded slice access
`typedOrig[idx]`, which panics (modelled as `Except.error`) as soon as the
current sequence is longer than the baseline sequence. -/
theorem c3_seq_longer_than_baseline_panics :
    diffWalk "" "" (.vseq [.vstr "a"]) (.vseq []) =
      .error "runtime error: index out of range" := rfl

/-- C2 counterexample: the claim states that every input that is not a
reference-to-struct yields a non-empty error list, in particular a bare
(non-pointer) struct value; but `Validate` explicitly skips struct values and
returns an empty error list, even when the struct contains an invalid field.
The shipped table is instantiated at one concrete behavior of the external
collaborators, which the `Hub` rule exercised here never consults. -/
theorem c2_counterexample :
    Validate (DefaultValidations ⟨fun _ => .ok "", fun _ => none, fun _ => none, fun _ => []⟩)
      requiredValues
      (.vstruct [("Hub", false, .vscalar (.sstr "bad hub"))]) [] true = [] ∧
    Validate (DefaultValidations ⟨fun _ => .ok "", fun _ => none, fun _ => none, fun _ => []⟩)
      requiredValues
      (.vptr (some (.vstruct [("Hub", false, .vscalar (.sstr "bad hub"))]))) [] true ≠ [] :=
  ⟨rfl, by decide⟩

/-- C2 amended: a nil input and a bare struct value are skipped with no
errors; a non-pointer non-struct input yields the single `expected ptr`
type-mismatch error; a pointer whose pointee is not a struct (including a nil
pointer) yields the single `expected struct` type-mismatch error. -/
theorem c2_type_mismatch_single_error (validations : Validations)
    (req : String → Bool) (path : List String) (cr : Bool) :
    Validate validations req .vnil path cr = [] ∧
    (∀ fs, Validate validations req (.vstruct fs) path cr = []) ∧
    (∀ s, Validate validations req (.vscalar s) path cr =
      [.expectedPtr (pathToString path)]) ∧
    (∀ es, Validate validations req (.vmap es) path cr =
      [.expectedPtr (pathToString path)]) ∧
    (∀ es, Validate validations req (.vslice es) path cr =
      [.expectedPtr (pathToString path)]) ∧
    (∀ inner, (∀ fs, inner ≠ some (.vstruct fs)) →
      Validate validations req (.vptr inner) path cr =
        [.expectedStruct (pathToString path)]) := by
  refine ⟨rfl, fun _ => rfl, fun _ => rfl, fun _ => rfl, fun _ => rfl, ?_⟩
  intro inner hinner
  match inner with
  | none => rfl
  | some .vnil => rfl
  | some (.vscalar _) => rfl
  | some (.vstruct fs) => exact absurd rfl (hinner fs)
  | some (.vmap _) => rfl
  | some (.vslice _) => rfl
  | some (.vptr _) => rfl

/-- C2 amended witness: applying `c2_type_mismatch_single_error` at a pointer
to a scalar yields the single `expected struct` error. -/
theorem c2_type_mismatch_single_error_witness :
    Validate [] (fun _ => false) (.vptr (some (.vscalar (.sint 3)))) [] false =
      [.expectedStruct ""] := by
  have h := (c2_type_mismatch_single_error [] (fun _ => false) [] false).2.2.2.2.2
    (some (.vscalar (.sint 3))) (by intro fs heq; injection heq with heq; cases heq)
  simpa using h

/-- C6: diff asymmetry — a current tree diffed against a nil baseline yields
no records whatever its shape and depth; a map whose baseline is not
map-shaped and a sequence whose baseline is not sequence-shaped yield no
records for their children (and in particular a scalar whose baseline is nil
yields no record). -/
theorem c6_nil_or_mismatched_baseline_no_records :
    (∀ (p sep : String) (obj : Value), diffWalk p sep obj .vnull = .ok []) ∧
    (∀ (p sep : String) (entries : List (String × Value)) (orig : Value),
      isMapV orig = false → diffWalk p sep (.vmap entries) orig = .ok []) ∧
    (∀ (p sep : String) (elems : List Value) (orig : Value),
      isSeqV orig = false → diffWalk p sep (.vseq elems) orig = .ok []) := by
  refine ⟨?_, ?_, ?_⟩
  · intro p sep obj
    cases obj <;> rfl
  · intro p sep entries orig h
    cases orig with
    | vmap es => simp [isMapV] at h
    | vnull => rfl
    | vstr s => rfl
    | vnum n => rfl
    | vbool b => rfl
    | vseq es => rfl
  · intro p sep elems orig h
    cases orig with
    | vseq es => simp [isSeqV] at h
    | vnull => rfl
    | vstr s => rfl
    | vnum n => rfl
    | vbool b => rfl
    | vmap es => rfl

/-- C6 witness: applying `c6_nil_or_mismatched_baseline_no_records` to deeply
nested non-empty current branches with nil or shape-mismatched baselines. -/
theorem c6_nil_or_mismatched_baseline_no_records_witness :
    diffWalk "p" "." (.vmap [("a", .vmap [("b", .vstr "x")])]) (.vstr "z") = .ok [] ∧
    diffWalk "p" "." (.vseq [.vmap [("c", .vnum 1)]]) (.vmap [("c", .vnum 2)]) = .ok [] ∧
    diffWalk "p" "." (.vstr "deep") .vnull = .ok [] :=
  ⟨c6_nil_or_mismatched_baseline_no_records.2.1 "p" "." _ _ rfl,
   c6_nil_or_mismatched_baseline_no_records.2.2 "p" "." _ _ rfl,
   c6_nil_or_mismatched_baseline_no_records.1 "p" "." _⟩

/-- Under unique keys, Go map indexing returns the value of a member entry. -/
theorem mapIndex_of_mem {entries : List (String × Value)} {k : String} {v : Value}
    (hu : keysUnique (entries.map Prod.fst) = true) (hm : (k, v) ∈ entries) :
    mapIndex entries k = v := by
  induction entries with
  | nil => cases hm
  | cons kv rest ih =>
    obtain ⟨k', v'⟩ := kv
    rw [List.map_cons] at hu
    unfold keysUnique at hu
    rw [Bool.and_eq_true] at hu
    obtain ⟨hnc, hu'⟩ := hu
    rcases List.mem_cons.mp hm with heq | hmem
    · cases heq
      simp [mapIndex]
    · have hne : k' ≠ k := by
        intro he
        subst he
        have hkm : k' ∈ rest.map Prod.fst := by
          exact List.mem_map_of_mem Prod.fst hmem
        simp [List.contains, hkm] at hnc
      simp only [mapIndex, if_neg hne]
      exact ih hu' hmem

/-- Entry values of a well-keyed entry list are themselves well-keyed. -/
theorem wfEntries_mem {entries : List (String × Value)} {k : String} {v : Value}
    (h : wfEntries entries = true) (hm : (k, v) ∈ entries) : wfKeys v = true := by
  induction entries with
  | nil => cases hm
  | cons kv rest ih =>
    rw [wfEntries, Bool.and_eq_true] at h
    rcases List.mem_cons.mp hm with heq | hmem
    · cases heq
      exact h.1
    · exact ih h.2 hmem

mutual

/-- Main induction for diff idempotence: diffing a well-keyed tree against
itself yields no records and no panic. -/
theorem diffWalk_self (X : Value) (p sep : String) (h : wfKeys X = true) :
    diffWalk p sep X X = .ok [] := by
  match X with
  | .vnull => rfl
  | .vstr s => simp [diffWalk, valueBeq]
  | .vnum n => simp [diffWalk, valueBeq]
  | .vbool b => simp [diffWalk, valueBeq]
  | .vmap entries =>
    rw [wfKeys, Bool.and_eq_true] at h
    rw [diffWalk]
    exact diffWalkMap_self entries entries p sep
      (fun kv hm => ⟨mapIndex_of_mem h.1 hm, wfEntries_mem h.2 hm⟩)
  | .vseq elems =>
    rw [wfKeys] at h
    rw [diffWalk]
    exact diffWalkSeq_self elems elems p 0 rfl h

/-- Map-entry induction for diff idempotence: if every current entry's key
resolves in the baseline to the identical well-keyed value, no records are
produced. -/
theorem diffWalkMap_self (entries origE : List (String × Value)) (p sep : String)
    (h : ∀ kv ∈ entries, mapIndex origE kv.1 = kv.2 ∧ wfKeys kv.2 = true) :
    diffWalkMap p sep entries origE = .ok [] := by
  match entries with
  | [] => rfl
  | (k, v) :: rest =>
    have hh := h (k, v) (List.mem_cons_self _ _)
    have hchild : diffWalk (p ++ sep ++ pathComponent k) "." v (mapIndex origE k) = .ok [] := by
      rw [hh.1]
      exact diffWalk_self v _ _ hh.2
    have hrest := diffWalkMap_self rest origE p sep
      (fun kv hm => h kv (List.mem_cons_of_mem _ hm))
    simp [diffWalkMap, hchild, hrest]
    rfl

/-- Sequence induction for diff idempotence: iterating the suffix of the
baseline starting at `idx` against the baseline itself produces no records
and stays in bounds. -/
theorem diffWalkSeq_self (elems origE : List Value) (p : String) (idx : Nat)
    (hdrop : origE.drop idx = elems) (h : wfElems elems = true) :
    diffWalkSeq p elems origE idx = .ok [] := by
  match elems with
  | [] => rfl
  | vv :: rest =>
    have hget : origE[idx]? = some vv := by
      have hd := List.getElem?_drop origE idx 0
      rw [hdrop] at hd
      simpa using hd.symm
    have hdrop' : origE.drop (idx + 1) = rest := by
      rw [← List.drop_drop, hdrop]
      rfl
    rw [wfElems, Bool.and_eq_true] at h
    have hchild := diffWalk_self vv (p ++ "[" ++ toString idx ++ "]") "." h.1
    have hrest := diffWalkSeq_self rest origE p (idx + 1) hdrop' h.2
    simp [diffWalkSeq, hget, hchild, hrest]
    rfl

end

/-- C8: diff idempotence — for every tree of nested maps (with the distinct
keys of a decoded Go map), sequences and scalars, diffing the tree against
itself returns the empty record list. -/
theorem c8_diff_idempotent (X : Value) (p sep : String) (h : wfKeys X = true) :
    diffWalk p sep X X = .ok [] :=
  diffWalk_self X p sep h

/-- C8 witness: applying `c8_diff_idempotent` to a concrete nested tree. -/
theorem c8_diff_idempotent_witness :
    diffWalk "" ""
      (.vmap [("a", .vseq [.vnum 1, .vmap [("b", .vstr "x"), ("c", .vbool true)]]),
              ("d", .vnull)])
      (.vmap [("a", .vseq [.vnum 1, .vmap [("b", .vstr "x"), ("c", .vbool true)]]),
              ("d", .vnull)]) = .ok [] :=
  c8_diff_idempotent _ "" "" (by rfl)

/-- The inner resource loop of `setupStatusPrint` on a response whose
resources all carry a non-matching payload type: no error, the gathered rows
are reset (unless the response is empty), and the raw bytes of all the
response's resources are written once per resource. -/
theorem foldlM_resources_passthrough (dr : DiscoveryResponse) (rs : List Resource)
    (st : SetupState) (h : ∀ r ∈ rs, r.typeUrl ≠ clientConfigTypeURL) :
    rs.foldlM (stepResource dr) st = .ok
      ⟨if rs.isEmpty then st.fullStatus else [], st.wInit,
       st.rawWrites ++
         (List.replicate rs.length (dr.resources.map (fun q => q.value))).flatten⟩ := by
  induction rs generalizing st with
  | nil =>
    simp [List.foldlM_nil]
    rfl
  | cons r rest ih =>
    have hne : r.typeUrl ≠ clientConfigTypeURL := h r (List.mem_cons_self _ _)
    have hstep : stepResource dr st r =
        .ok ⟨[], st.wInit, st.rawWrites ++ dr.resources.map (fun q => q.value)⟩ := by
      simp [stepResource, hne]
    rw [List.foldlM_cons, hstep]
    show rest.foldlM (stepResource dr)
      ⟨[], st.wInit, st.rawWrites ++ dr.resources.map (fun q => q.value)⟩ = _
    rw [ih _ (fun r' hr' => h r' (List.mem_cons_of_mem _ hr'))]
    simp [List.replicate_succ, List.append_assoc]

/-- The outer loop of `setupStatusPrint` under all-non-matching resources:
starting from an empty row list, the fold never errors, never initializes the
tabwriter, keeps the row list empty, and appends each response's passthrough
writes. -/
theorem setupStatusPrint_passthrough (drs : List (String × DiscoveryResponse))
    (st : SetupState) (hst : st.fullStatus = [])
    (h : ∀ p ∈ drs, ∀ r ∈ p.2.resources, r.typeUrl ≠ clientConfigTypeURL) :
    drs.foldlM (fun st' p => p.2.resources.foldlM (stepResource p.2) st') st = .ok
      ⟨[], st.wInit,
       st.rawWrites ++ drs.flatMap (fun p =>
         (List.replicate p.2.resources.length
           (p.2.resources.map (fun q => q.value))).flatten)⟩ := by
  induction drs generalizing st with
  | nil =>
    simp [List.foldlM_nil, hst]
    rw [← hst]
    rfl
  | cons p rest ih =>
    rw [List.foldlM_cons,
      foldlM_resources_passthrough p.2 p.2.resources st (h p (List.mem_cons_self _ _))]
    have hmid : (SetupState.mk (if p.2.resources.isEmpty then st.fullStatus else [])
        st.wInit
        (st.rawWrites ++ (List.replicate p.2.resources.length
          (p.2.resources.map (fun q => q.value))).flatten)).fullStatus = [] := by
      show (if p.2.resources.isEmpty then st.fullStatus else []) = []
      rw [hst]
      exact ite_self _
    have hrest := ih _ hmid (fun p' hp' => h p' (List.mem_cons_of_mem _ hp'))
    show rest.foldlM _
      (SetupState.mk (if p.2.resources.isEmpty then st.fullStatus else [])
        st.wInit
        (st.rawWrites ++ (List.replicate p.2.resources.length
          (p.2.resources.map (fun q => q.value))).flatten)) = _
    rw [hrest]
    simp [List.flatMap_cons, List.append_assoc]

/-- C4 counterexample: a single response carrying two resources of a
non-matching payload type. `PrintAll` returns no error, but the passthrough
branch re-iterates all of the response's resources once per non-matching
resource, so each resource's bytes appear twice in the output — refuting
"each resource's bytes written exactly once". -/
theorem c4_counterexample :
    PrintAll [("istiod-1", ⟨[⟨"t", "a", none⟩, ⟨"t", "b", none⟩], "cp", "1.9"⟩)] =
      .ok (["a", "b", "a", "b"], []) ∧
    (["a", "b", "a", "b"] : List String).count "a" = 2 :=
  ⟨rfl, by decide⟩

/-- C4 amended: for every map of discovery responses whose resources all
carry a payload type other than the expected ClientConfig type,
`XdsStatusWriter.PrintAll` returns no error and writes raw payload bytes
through unmodified — but each response's resources are written once per
non-matching resource of that response (the passthrough branch loops over all
resources of the response again), so bytes are written exactly once only when
each response holds exactly one resource. -/
theorem c4_passthrough_no_error (drs : List (String × DiscoveryResponse))
    (h : ∀ p ∈ drs, ∀ r ∈ p.2.resources, r.typeUrl ≠ clientConfigTypeURL) :
    PrintAll drs = .ok
      (drs.flatMap (fun p =>
        (List.replicate p.2.resources.length
          (p.2.resources.map (fun q => q.value))).flatten), []) := by
  show (setupStatusPrint drs).bind _ = _
  rw [setupStatusPrint, setupStatusPrint_passthrough drs ⟨[], false, []⟩ rfl h]
  rfl

/-- C4 amended witness: applying `c4_passthrough_no_error` to two responses
of one non-matching resource each. -/
theorem c4_passthrough_no_error_witness :
    PrintAll [("i1", ⟨[⟨"t", "a", none⟩], "cp", "v"⟩),
              ("i2", ⟨[⟨"t", "b", none⟩], "cp", "v"⟩)] = .ok (["a", "b"], []) := by
  have h := c4_passthrough_no_error
    [("i1", ⟨[⟨"t", "a", none⟩], "cp", "v"⟩), ("i2", ⟨[⟨"t", "b", none⟩], "cp", "v"⟩)]
    (by decide)
  exact h.trans (by rfl)

/-- The host-alias loop of `processBundle` in closed form. -/
theorem foldl_addhost_eq_flatMap (hosts : List String) (f : String → String)
    (acc : List String) :
    hosts.foldl (fun cmd host => cmd ++ ["--add-host", f host]) acc =
      acc ++ hosts.flatMap (fun host => ["--add-host", f host]) := by
  induction hosts generalizing acc with
  | nil => simp
  | cons hh rest ih =>
    rw [List.foldl_cons, ih, List.flatMap_cons, List.append_assoc]

/-- A `host:address` mapping is never the literal `--add-host` flag, since it
contains a colon. -/
theorem addhost_pair_ne (hh a : String) : hh ++ ":" ++ a ≠ "--add-host" := by
  intro heq
  have hd : (hh ++ ":" ++ a).data = "--add-host".data := congrArg String.data heq
  rw [String.data_append, String.data_append] at hd
  have hmem : ':' ∈ "--add-host".data := by
    rw [← hd]
    simp
  exact absurd hmem (by decide)

/-- The host-alias flags contain the `--add-host` flag exactly once per
configured host. -/
theorem count_addhost (hosts : List String) (f : String → String)
    (hne : ∀ hh, f hh ≠ "--add-host") :
    (hosts.flatMap (fun hh => ["--add-host", f hh])).count "--add-host" =
      hosts.length := by
  induction hosts with
  | nil => rfl
  | cons hh rest ih =>
    rw [List.flatMap_cons]
    show List.count "--add-host" ("--add-host" :: f hh :: _) = _
    rw [List.count_cons_self, List.count_cons_of_ne (fun he => hne hh he.symm)]
    simp [ih]

/-- C7 counterexample: at a concrete bundle and remote directory, the launch
command's volume-mount mappings (`-v` arguments) cover only the CA
certificate and identity token files; the environment file is referenced via
`--env-file`, not volume-mounted — refuting "volume mounts for the three
files". -/
theorem c7_counterexample :
    volumeMountArgs (launchCmdTokens
      ⟨"CA", "10.0.0.1", "wl", "TOK", "istio-proxy", "img:1.9", "A=B",
        ["proxy"], ["host-a"]⟩ "/d") =
      ["/d/istio-ca.pem:/var/run/secrets/istio/root-cert.pem",
       "/d/istio-token:/var/run/secrets/tokens/istio-token"] ∧
    (volumeMountArgs (launchCmdTokens
      ⟨"CA", "10.0.0.1", "wl", "TOK", "istio-proxy", "img:1.9", "A=B",
        ["proxy"], ["host-a"]⟩ "/d")).all
      (fun t => !(List.isPrefixOf ("/d/sidecar.env:").data t.data)) = true :=
  ⟨rfl, by decide⟩

/-- C7 amended: `processBundle` deterministically produces exactly 3 files in
fixed order — environment file, CA certificate file, identity token file, all
targeted at the remote directory, with the stricter mode 0640 on the token
and the looser 0644 on the other two — and exactly 2 commands in fixed
order: a non-required remove-prior-container command and a required launch
command consisting of the fixed head (with volume mounts for the CA
certificate and token files and an `--env-file` reference to the environment
file), exactly one `--add-host` flag per configured host alias all mapped to
the ingress gateway address, the image reference, and the trailing process
arguments. -/
theorem c7_bundle_structure (b : BootstrapBundle) (d : String) :
    (processBundle b d).filesToCopy.map (fun f => (f.name, f.dir, f.perm)) =
      [("sidecar.env", d, configFilePerm), ("istio-ca.pem", d, configFilePerm),
       ("istio-token", d, secretFilePerm)] ∧
    (processBundle b d).filesToCopy.map (fun f => f.data) =
      [b.IstioProxyEnvironment, b.IstioCaCert, b.ServiceAccountToken] ∧
    secretFilePerm < configFilePerm ∧
    (processBundle b d).cmdsToExec =
      [⟨"docker rm --force " ++ b.IstioProxyContainerName, false⟩,
       ⟨String.intercalate " " (launchCmdTokens b d), true⟩] ∧
    launchCmdTokens b d =
      launchCmdBase b d ++
        b.IstioProxyHosts.flatMap
          (fun hh => ["--add-host", hh ++ ":" ++ b.IstioIngressGatewayAddress]) ++
        [b.IstioProxyImage] ++ b.IstioProxyArgs ∧
    (b.IstioProxyHosts.flatMap
        (fun hh => ["--add-host", hh ++ ":" ++ b.IstioIngressGatewayAddress])).count
      "--add-host" = b.IstioProxyHosts.length := by
  refine ⟨rfl, rfl, by decide, rfl, ?_, ?_⟩
  · rw [launchCmdTokens, foldl_addhost_eq_flatMap]
  · exact count_addhost _ _ (fun hh => addhost_pair_ne hh b.IstioIngressGatewayAddress)

/-- C9: for every rule table, required table, path and empty/absent leaf
value, `validateLeaf` returns the empty error list — and consults no rule
function, as the result is independent of the rule table — except when
required-field checking is active and the exact path is marked required, in
which case it returns exactly one error naming that path in display form;
with `checkRequired = false` the result is always empty. -/
theorem c9_empty_leaf_required_only (validations : Validations)
    (req : String → Bool) (path : List String) (val : GoVal)
    (checkRequired : Bool) (h : isEmptyVal val = true) :
    validateLeaf validations req path val checkRequired =
      if checkRequired && req (pathToString path) then
        [.requiredNotSet (toYAMLPathString (pathToString path))]
      else [] := by
  simp only [validateLeaf, h]
  rfl

/-- C9 witness: an empty leaf at a path marked required produces exactly the
required-field error with the path in display form; the same leaf with
`checkRequired = false` produces no error. The rule table registers a rule at
the very same path, which is not invoked. -/
theorem c9_empty_leaf_required_only_witness :
    validateLeaf [("A.B", fun p _ => [.ruleViolation (pathToString p)])]
      (fun s => s = "A.B") ["A", "B"] .vnil true = [.requiredNotSet "a.b"] ∧
    validateLeaf [("A.B", fun p _ => [.ruleViolation (pathToString p)])]
      (fun s => s = "A.B") ["A", "B"] .vnil false = [] := by
  have h1 := c9_empty_leaf_required_only
    [("A.B", fun p _ => [VErr.ruleViolation (pathToString p)])]
    (fun s => s = "A.B") ["A", "B"] .vnil true rfl
  have h2 := c9_empty_leaf_required_only
    [("A.B", fun p _ => [VErr.ruleViolation (pathToString p)])]
    (fun s => s = "A.B") ["A", "B"] .vnil false rfl
  exact ⟨h1.trans (by rfl), h2.trans (by rfl)⟩

/-- A successful table lookup returns a function stored in the table. -/
theorem lookupVF_mem {tbl : Validations} {s : String} {f : ValidatorFunc}
    (h : lookupVF tbl s = some f) : ∃ k, (k, f) ∈ tbl := by
  induction tbl with
  | nil => cases h
  | cons kf rest ih =>
    obtain ⟨k, g⟩ := kf
    by_cases hk : k = s
    · rw [lookupVF, if_pos hk] at h
      injection h with h'
      exact ⟨k, by rw [← h']; exact List.mem_cons_self _ _⟩
    · rw [lookupVF, if_neg hk] at h
      obtain ⟨k', hmem⟩ := ih h
      exact ⟨k', List.mem_cons_of_mem _ hmem⟩

/-- A rule resolved for a path (exactly or through the wildcard pattern) is a
rule stored in the table. -/
theorem getValidationFuncForPath_mem {tbl : Validations} {path : List String}
    {f : ValidatorFunc} (h : getValidationFuncForPath tbl path = some f) :
    ∃ k, (k, f) ∈ tbl := by
  rw [getValidationFuncForPath] at h
  cases he : lookupVF tbl (pathToString path) with
  | some g =>
    rw [he] at h
    injection h with h'
    subst h'
    exact lookupVF_mem he
  | none =>
    rw [he] at h
    exact lookupVF_mem h

/-- A rule table none of whose functions ever produces the required-field
error. -/
abbrev NoRequiredRules (validations : Validations) : Prop :=
  ∀ kf ∈ validations, ∀ (p : List String) (v : GoVal) (e : VErr),
    e ∈ kf.2 p v → e.isRequiredNotSet = false

/-- With an empty required table, `validateLeaf` never produces the
required-field error (its other outputs come from the rule table). -/
theorem validateLeaf_noRequired {tbl : Validations} {req : String → Bool}
    {path : List String} {val : GoVal} {cr : Bool}
    (hreq : ∀ s, req s = false) (htbl : NoRequiredRules tbl) :
    ∀ e ∈ validateLeaf tbl req path val cr, e.isRequiredNotSet = false := by
  intro e he
  rw [validateLeaf] at he
  by_cases hv : isEmptyVal val = true
  · simp [hv, hreq] at he
  · simp only [hv] at he
    simp at he
    cases hg : getValidationFuncForPath tbl path with
    | none => rw [hg] at he; cases he
    | some vf =>
      rw [hg] at he
      obtain ⟨k, hk⟩ := getValidationFuncForPath_mem hg
      exact htbl (k, vf) hk path val e he

mutual

/-- Main induction: with an empty required table and a required-free rule
table, the walker never emits the required-field error. -/
theorem Validate_noRequired (tbl : Validations) (req : String → Bool)
    (v : GoVal) (path : List String) (cr : Bool)
    (hreq : ∀ s, req s = false) (htbl : NoRequiredRules tbl) :
    ∀ e ∈ Validate tbl req v path cr, e.isRequiredNotSet = false := by
  intro e he
  cases v with
  | vnil => exact absurd (show e ∈ ([] : List VErr) from he) (List.not_mem_nil e)
  | vstruct fs => exact absurd (show e ∈ ([] : List VErr) from he) (List.not_mem_nil e)
  | vscalar s =>
    rcases List.mem_singleton.mp
      (show e ∈ [VErr.expectedPtr (pathToString path)] from he) with rfl
    rfl
  | vmap entries =>
    rcases List.mem_singleton.mp
      (show e ∈ [VErr.expectedPtr (pathToString path)] from he) with rfl
    rfl
  | vslice elems =>
    rcases List.mem_singleton.mp
      (show e ∈ [VErr.expectedPtr (pathToString path)] from he) with rfl
    rfl
  | vptr inner =>
    cases inner with
    | none =>
      rcases List.mem_singleton.mp
        (show e ∈ [VErr.expectedStruct (pathToString path)] from he) with rfl
      rfl
    | some w =>
      cases w with
      | vstruct fs =>
        exact validateFields_noRequired tbl req fs path cr hreq htbl e he
      | vnil =>
        rcases List.mem_singleton.mp
          (show e ∈ [VErr.expectedStruct (pathToString path)] from he) with rfl
        rfl
      | vscalar s =>
        rcases List.mem_singleton.mp
          (show e ∈ [VErr.expectedStruct (pathToString path)] from he) with rfl
        rfl
      | vmap entries =>
        rcases List.mem_singleton.mp
          (show e ∈ [VErr.expectedStruct (pathToString path)] from he) with rfl
        rfl
      | vslice elems =>
        rcases List.mem_singleton.mp
          (show e ∈ [VErr.expectedStruct (pathToString path)] from he) with rfl
        rfl
      | vptr j =>
        rcases List.mem_singleton.mp
          (show e ∈ [VErr.expectedStruct (pathToString path)] from he) with rfl
        rfl

/-- Field-loop induction for the required-free property. -/
theorem validateFields_noRequired (tbl : Validations) (req : String → Bool)
    (fs : List (String × Bool × GoVal)) (path : List String) (cr : Bool)
    (hreq : ∀ s, req s = false) (htbl : NoRequiredRules tbl) :
    ∀ e ∈ validateFields tbl req fs path cr, e.isRequiredNotSet = false := by
  intro e he
  match fs with
  | [] => exact absurd (show e ∈ ([] : List VErr) from he) (List.not_mem_nil e)
  | (name, skip, v) :: rest =>
    cases v with
    | vstruct gs =>
      rcases List.mem_append.mp (show e ∈
          (if skip = true then ([] : List VErr)
           else validateFields tbl req gs (path ++ [name]) cr) ++
          validateFields tbl req rest path cr from he) with h1 | h2
      · by_cases hskip : skip = true
        · rw [if_pos hskip] at h1
          exact absurd h1 (List.not_mem_nil e)
        · rw [if_neg hskip] at h1
          exact validateFields_noRequired tbl req gs (path ++ [name]) cr hreq htbl e h1
      · exact validateFields_noRequired tbl req rest path cr hreq htbl e h2
    | vmap entries =>
      rcases List.mem_append.mp (show e ∈
          (if skip = true then ([] : List VErr)
           else validateLeaf tbl req (path ++ [name]) (.vmap entries) cr ++
             validateMapEntries tbl req entries (path ++ [name]) cr) ++
          validateFields tbl req rest path cr from he) with h1 | h2
      · by_cases hskip : skip = true
        · rw [if_pos hskip] at h1
          exact absurd h1 (List.not_mem_nil e)
        · rw [if_neg hskip] at h1
          rcases List.mem_append.mp h1 with hl | hm
          · exact validateLeaf_noRequired hreq htbl e hl
          · exact validateMapEntries_noRequired tbl req entries (path ++ [name]) cr
              hreq htbl e hm
      · exact validateFields_noRequired tbl req rest path cr hreq htbl e h2
    | vslice elems =>
      rcases List.mem_append.mp (show e ∈
          (if skip = true then ([] : List VErr)
           else validateSliceElems tbl req name elems 0 path cr) ++
          validateFields tbl req rest path cr from he) with h1 | h2
      · by_cases hskip : skip = true
        · rw [if_pos hskip] at h1
          exact absurd h1 (List.not_mem_nil e)
        · rw [if_neg hskip] at h1
          exact validateSliceElems_noRequired tbl req name elems 0 path cr hreq htbl e h1
      · exact validateFields_noRequired tbl req rest path cr hreq htbl e h2
    | vnil =>
      rcases List.mem_append.mp (show e ∈
          (if skip = true then ([] : List VErr)
           else validateLeaf tbl req (path ++ [name]) .vnil cr) ++
          validateFields tbl req rest path cr from he) with h1 | h2
      · by_cases hskip : skip = true
        · rw [if_pos hskip] at h1
          exact absurd h1 (List.not_mem_nil e)
        · rw [if_neg hskip] at h1
          exact validateLeaf_noRequired hreq htbl e h1
      · exact validateFields_noRequired tbl req rest path cr hreq htbl e h2
    | vscalar s =>
      rcases List.mem_append.mp (show e ∈
          (if skip = true then ([] : List VErr)
           else validateLeaf tbl req (path ++ [name]) (.vscalar s) cr) ++
          validateFields tbl req rest path cr from he) with h1 | h2
      · by_cases hskip : skip = true
        · rw [if_pos hskip] at h1
          exact absurd h1 (List.not_mem_nil e)
        · rw [if_neg hskip] at h1
          exact validateLeaf_noRequired hreq htbl e h1
      · exact validateFields_noRequired tbl req rest path cr hreq htbl e h2
    | vptr inner =>
      cases inner with
      | none =>
        rcases List.mem_append.mp (show e ∈
            (if skip = true then ([] : List VErr) else ([] : List VErr)) ++
            validateFields tbl req rest path cr from he) with h1 | h2
        · by_cases hskip : skip = true
          · rw [if_pos hskip] at h1
            exact absurd h1 (List.not_mem_nil e)
          · rw [if_neg hskip] at h1
            exact absurd h1 (List.not_mem_nil e)
        · exact validateFields_noRequired tbl req rest path cr hreq htbl e h2
      | some w =>
        cases w with
        | vstruct gs =>
          rcases List.mem_append.mp (show e ∈
              (if skip = true then ([] : List VErr)
               else validateFields tbl req gs (path ++ [name]) cr) ++
              validateFields tbl req rest path cr from he) with h1 | h2
          · by_cases hskip : skip = true
            · rw [if_pos hskip] at h1
              exact absurd h1 (List.not_mem_nil e)
            · rw [if_neg hskip] at h1
              exact validateFields_noRequired tbl req gs (path ++ [name]) cr hreq htbl e h1
          · exact validateFields_noRequired tbl req rest path cr hreq htbl e h2
        | vnil =>
          rcases List.mem_append.mp (show e ∈
              (if skip = true then ([] : List VErr)
               else validateLeaf tbl req (path ++ [name]) (.vptr (some .vnil)) cr) ++
              validateFields tbl req rest path cr from he) with h1 | h2
          · by_cases hskip : skip = true
            · rw [if_pos hskip] at h1
              exact absurd h1 (List.not_mem_nil e)
            · rw [if_neg hskip] at h1
              exact validateLeaf_noRequired hreq htbl e h1
          · exact validateFields_noRequired tbl req rest path cr hreq htbl e h2
        | vscalar s =>
          rcases List.mem_append.mp (show e ∈
              (if skip = true then ([] : List VErr)
               else validateLeaf tbl req (path ++ [name])
                 (.vptr (some (.vscalar s))) cr) ++
              validateFields tbl req rest path cr from he) with h1 | h2
          · by_cases hskip : skip = true
            · rw [if_pos hskip] at h1
              exact absurd h1 (List.not_mem_nil e)
            · rw [if_neg hskip] at h1
              exact validateLeaf_noRequired hreq htbl e h1
          · exact validateFields_noRequired tbl req rest path cr hreq htbl e h2
        | vmap entries =>
          rcases List.mem_append.mp (show e ∈
              (if skip = true then ([] : List VErr)
               else validateLeaf tbl req (path ++ [name])
                 (.vptr (some (.vmap entries))) cr) ++
              validateFields tbl req rest path cr from he) with h1 | h2
          · by_cases hskip : skip = true
            · rw [if_pos hskip] at h1
              exact absurd h1 (List.not_mem_nil e)
            · rw [if_neg hskip] at h1
              exact validateLeaf_noRequired hreq htbl e h1
          · exact validateFields_noRequired tbl req rest path cr hreq htbl e h2
        | vslice elems =>
          rcases List.mem_append.mp (show e ∈
              (if skip = true then ([] : List VErr)
               else validateLeaf tbl req (path ++ [name])
                 (.vptr (some (.vslice elems))) cr) ++
              validateFields tbl req rest path cr from he) with h1 | h2
          · by_cases hskip : skip = true
            · rw [if_pos hskip] at h1
              exact absurd h1 (List.not_mem_nil e)
            · rw [if_neg hskip] at h1
              exact validateLeaf_noRequired hreq htbl e h1
          · exact validateFields_noRequired tbl req rest path cr hreq htbl e h2
        | vptr j =>
          rcases List.mem_append.mp (show e ∈
              (if skip = true then ([] : List VErr)
               else validateLeaf tbl req (path ++ [name])
                 (.vptr (some (.vptr j))) cr) ++
              validateFields tbl req rest path cr from he) with h1 | h2
          · by_cases hskip : skip = true
            · rw [if_pos hskip] at h1
              exact absurd h1 (List.not_mem_nil e)
            · rw [if_neg hskip] at h1
              exact validateLeaf_noRequired hreq htbl e h1
          · exact validateFields_noRequired tbl req rest path cr hreq htbl e h2

/-- Map-entry-loop induction for the required-free property. -/
theorem validateMapEntries_noRequired (tbl : Validations) (req : String → Bool)
    (entries : List (String × GoVal)) (newPath : List String) (cr : Bool)
    (hreq : ∀ s, req s = false) (htbl : NoRequiredRules tbl) :
    ∀ e ∈ validateMapEntries tbl req entries newPath cr,
      e.isRequiredNotSet = false := by
  intro e he
  match entries with
  | [] => exact absurd (show e ∈ ([] : List VErr) from he) (List.not_mem_nil e)
  | (k, v) :: rest =>
    rw [validateMapEntries] at he
    rcases List.mem_append.mp he with h1 | h2
    · exact validateLeaf_noRequired hreq htbl e h1
    · exact validateMapEntries_noRequired tbl req rest newPath cr hreq htbl e h2

/-- Slice-element-loop induction for the required-free property. -/
theorem validateSliceElems_noRequired (tbl : Validations) (req : String → Bool)
    (name : String) (elems : List GoVal) (idx : Nat) (path : List String)
    (cr : Bool) (hreq : ∀ s, req s = false) (htbl : NoRequiredRules tbl) :
    ∀ e ∈ validateSliceElems tbl req name elems idx path cr,
      e.isRequiredNotSet = false := by
  intro e he
  match elems with
  | [] => exact absurd (show e ∈ ([] : List VErr) from he) (List.not_mem_nil e)
  | x :: rest =>
    cases x with
    | vstruct gs =>
      rcases List.mem_append.mp (show e ∈
          Validate tbl req (.vstruct gs) (path ++ [indexPathForSlice name idx]) cr ++
          validateSliceElems tbl req name rest (idx + 1) path cr from he) with h1 | h2
      · exact Validate_noRequired tbl req (.vstruct gs)
          (path ++ [indexPathForSlice name idx]) cr hreq htbl e h1
      · exact validateSliceElems_noRequired tbl req name rest (idx + 1) path cr
          hreq htbl e h2
    | vptr inner =>
      rcases List.mem_append.mp (show e ∈
          Validate tbl req (.vptr inner) (path ++ [indexPathForSlice name idx]) cr ++
          validateSliceElems tbl req name rest (idx + 1) path cr from he) with h1 | h2
      · exact Validate_noRequired tbl req (.vptr inner)
          (path ++ [indexPathForSlice name idx]) cr hreq htbl e h1
      · exact validateSliceElems_noRequired tbl req name rest (idx + 1) path cr
          hreq htbl e h2
    | vnil =>
      rcases List.mem_append.mp (show e ∈
          validateLeaf tbl req (path ++ [indexPathForSlice name idx]) .vnil cr ++
          validateSliceElems tbl req name rest (idx + 1) path cr from he) with h1 | h2
      · exact validateLeaf_noRequired hreq htbl e h1
      · exact validateSliceElems_noRequired tbl req name rest (idx + 1) path cr
          hreq htbl e h2
    | vscalar s =>
      rcases List.mem_append.mp (show e ∈
          validateLeaf tbl req (path ++ [indexPathForSlice name idx]) (.vscalar s) cr ++
          validateSliceElems tbl req name rest (idx + 1) path cr from he) with h1 | h2
      · exact validateLeaf_noRequired hreq htbl e h1
      · exact validateSliceElems_noRequired tbl req name rest (idx + 1) path cr
          hreq htbl e h2
    | vmap entries =>
      rcases List.mem_append.mp (show e ∈
          validateLeaf tbl req (path ++ [indexPathForSlice name idx]) (.vmap entries) cr ++
          validateSliceElems tbl req name rest (idx + 1) path cr from he) with h1 | h2
      · exact validateLeaf_noRequired hreq htbl e h1
      · exact validateSliceElems_noRequired tbl req name rest (idx + 1) path cr
          hreq htbl e h2
    | vslice es =>
      rcases List.mem_append.mp (show e ∈
          validateLeaf tbl req (path ++ [indexPathForSlice name idx]) (.vslice es) cr ++
          validateSliceElems tbl req name rest (idx + 1) path cr from he) with h1 | h2
      · exact validateLeaf_noRequired hreq htbl e h1
      · exact validateSliceElems_noRequired tbl req name rest (idx + 1) path cr
          hreq htbl e h2

end

/-- `validateWithRegex` produces only rule-violation errors. -/
theorem validateWithRegex_noRequired (path : List String) (val : GoVal)
    (ok : String → Bool) :
    ∀ e ∈ validateWithRegex path val ok, e.isRequiredNotSet = false := by
  intro e he
  rw [validateWithRegex] at he
  by_cases hok : ok (renderScalar val) = true
  · rw [if_pos hok] at he
    exact absurd he (List.not_mem_nil e)
  · rw [if_neg hok] at he
    rcases List.mem_singleton.mp he with rfl
    rfl

/-- `validateAddonComponents` produces only rule-violation errors. -/
theorem validateAddonComponents_noRequired (p : List String) (v : GoVal) :
    ∀ e ∈ validateAddonComponents p v, e.isRequiredNotSet = false := by
  intro e he
  cases v with
  | vmap entries =>
    have he' : e ∈ (match entries.find? (fun kv =>
        bundledAddonComponentNames.contains kv.1 && kv.1 = titleCase kv.1) with
      | some kv => [VErr.ruleViolation ("invalid addon component name: " ++ kv.1)]
      | none => ([] : List VErr)) := he
    cases hf : entries.find? (fun kv =>
        bundledAddonComponentNames.contains kv.1 && kv.1 = titleCase kv.1) with
    | some kv =>
      rw [hf] at he'
      rcases List.mem_singleton.mp he' with rfl
      rfl
    | none =>
      rw [hf] at he'
      exact absurd he' (List.not_mem_nil e)
  | vnil =>
    rcases List.mem_singleton.mp he with rfl
    rfl
  | vscalar s =>
    rcases List.mem_singleton.mp he with rfl
    rfl
  | vstruct fs =>
    rcases List.mem_singleton.mp he with rfl
    rfl
  | vslice es =>
    rcases List.mem_singleton.mp he with rfl
    rfl
  | vptr inner =>
    rcases List.mem_singleton.mp he with rfl
    rfl

/-- `validateGatewayName` produces only rule-violation errors. -/
theorem validateGatewayName_noRequired (p : List String) (v : GoVal) :
    ∀ e ∈ validateGatewayName p v, e.isRequiredNotSet = false := by
  intro e he
  cases v with
  | vscalar s =>
    cases s with
    | sstr str =>
      have he' : e ∈ (if str = "" then ([] : List VErr)
          else validateWithRegex p (.vscalar (.sstr str)) objectNameOk) := he
      by_cases hs : str = ""
      · rw [if_pos hs] at he'
        exact absurd he' (List.not_mem_nil e)
      · rw [if_neg hs] at he'
        exact validateWithRegex_noRequired p _ objectNameOk e he'
    | sint n =>
      rcases List.mem_singleton.mp he with rfl
      rfl
    | sbool b =>
      rcases List.mem_singleton.mp he with rfl
      rfl
  | vnil =>
    rcases List.mem_singleton.mp he with rfl
    rfl
  | vstruct fs =>
    rcases List.mem_singleton.mp he with rfl
    rfl
  | vmap entries =>
    rcases List.mem_singleton.mp he with rfl
    rfl
  | vslice es =>
    rcases List.mem_singleton.mp he with rfl
    rfl
  | vptr inner =>
    rcases List.mem_singleton.mp he with rfl
    rfl

/-- The values-blob validation wraps the pipeline's failure messages as
rule-violation errors, never the required-field error, whatever the external
pipeline does. -/
theorem CheckValues_noRequired (ext : ExternalChecks) (root : GoVal) :
    ∀ e ∈ CheckValues ext root, e.isRequiredNotSet = false := by
  intro e he
  rw [CheckValues] at he
  rcases List.mem_map.mp he with ⟨msg, _, rfl⟩
  rfl

/-- Each failing step of `validateMeshConfig` (marshal, strict merge,
semantic validation) returns a single rule-violation error, never the
required-field error, whatever the external collaborators do. -/
theorem validateMeshConfig_noRequired (ext : ExternalChecks) (p : List String)
    (root : GoVal) :
    ∀ e ∈ validateMeshConfig ext p root, e.isRequiredNotSet = false := by
  intro e he
  rw [validateMeshConfig] at he
  cases hm : ext.yamlMarshal root with
  | error err =>
    rw [hm] at he
    rcases List.mem_singleton.mp he with rfl
    rfl
  | ok vs =>
    rw [hm] at he
    have he2 : e ∈ (match ext.applyYAMLStrict vs with
        | some err => [VErr.ruleViolation ("failed to unmarshall mesh config: " ++ err)]
        | none =>
          match ext.applyMeshConfigDefaults vs with
          | some validErr => [VErr.ruleViolation validErr]
          | none => ([] : List VErr)) := he
    cases hs : ext.applyYAMLStrict vs with
    | some err =>
      rw [hs] at he2
      rcases List.mem_singleton.mp he2 with rfl
      rfl
    | none =>
      rw [hs] at he2
      have he3 : e ∈ (match ext.applyMeshConfigDefaults vs with
          | some validErr => [VErr.ruleViolation validErr]
          | none => ([] : List VErr)) := he2
      cases hd : ext.applyMeshConfigDefaults vs with
      | some validErr =>
        rw [hd] at he3
        rcases List.mem_singleton.mp he3 with rfl
        rfl
      | none =>
        rw [hd] at he3
        exact absurd he3 (List.not_mem_nil e)

/-- The shipped rule table never produces the required-field error, for
every behavior of the external collaborators. -/
theorem DefaultValidations_noRequired (ext : ExternalChecks) :
    NoRequiredRules (DefaultValidations ext) := by
  intro kf hkf p v e he
  simp only [DefaultValidations, List.mem_cons, List.not_mem_nil, or_false] at hkf
  rcases hkf with h | h | h | h | h | h | h <;> subst h
  · exact CheckValues_noRequired ext v e he
  · exact validateMeshConfig_noRequired ext p v e he
  · exact validateWithRegex_noRequired p v referenceOk e he
  · exact validateWithRegex_noRequired p v tagOk e he
  · exact validateAddonComponents_noRequired p v e he
  · exact validateGatewayName_noRequired p v e he
  · exact validateGatewayName_noRequired p v e he

/-- C10: the package-level required-values table is empty, so for every spec,
for both values of the required-fields flag and for every behavior of the
external collaborators (yaml marshal, strict merge, mesh-config and values
semantic validation), `CheckIstioOperatorSpec` never returns a "required but
not set" error: the required-field failure branch of `validateLeaf` is
unreachable through the public entry point as shipped. -/
theorem c10_no_required_errors (ext : ExternalChecks)
    (is : Option (List (String × Bool × GoVal))) (cr : Bool) :
    (CheckIstioOperatorSpec ext is cr).all (fun e => !e.isRequiredNotSet) = true := by
  cases is with
  | none => rfl
  | some fs =>
    rw [List.all_eq_true]
    intro e he
    have h := Validate_noRequired (DefaultValidations ext) requiredValues
      (.vptr (some (.vstruct fs))) [] cr (fun _ => rfl)
      (DefaultValidations_noRequired ext) e he
    simp [h]
